import Mathlib

/-!
Verification of the capacity-advisor engine of this repository.

The data model follows src/src/types.ts.  The response sorter follows
fetchAllZonesCapacity in services/apiService.ts.  The classifier follows
getMachineTypeFamily in src/utils.ts, and the friendly error formatter follows
getFriendlyErrorMessage in the same file.  The scoring engine
(services/simulationEngine.ts) is not part of the available sources; its
definitions below are modelled from the specification and are marked as such.
Floating-point score values are embedded as rationals.
-/

/-- A named score, as in the Score interface of types.ts. -/
structure Score where
  name : String
  value : Rat
deriving DecidableEq

/-- A placement shard, as in the Shard interface of types.ts. -/
structure Shard where
  location : String
  machineType : String
  count : Nat
  provisioningModel : String
deriving DecidableEq

/-- A recommendation, as in the Recommendation interface of types.ts. -/
structure Recommendation where
  scores : List Score
  shards : List Shard
deriving DecidableEq

/-- The response envelope, as in the CapacityAdvisorResponse interface of types.ts. -/
structure CapacityAdvisorResponse where
  recommendations : List Recommendation
deriving DecidableEq

/-- The distribution strategy, as in the TargetShape enum of types.ts. -/
inductive TargetShape where
  | any
  | anySingleZone
  | balanced
deriving DecidableEq

/-- The obtainability key of a recommendation as read by the sorter in
fetchAllZonesCapacity: the value of the first score named obtainability,
defaulting to 0 when the entry is missing (the JS expression
scores.find(s to s.name === obtainability)?.value || 0; a stored value 0 is
mapped to 0 by both readings). -/
def obtScore (r : Recommendation) : Rat :=
  (((r.scores.find? (fun s => s.name == "obtainability")).map Score.value).getD 0)

/-- Comparator order used by the sorter: a comes no later than b when the
obtainability of b does not exceed that of a (JS comparator scoreB - scoreA,
descending). -/
def recGE (a b : Recommendation) : Prop := obtScore b ≤ obtScore a

instance : DecidableRel recGE := fun a b =>
  inferInstanceAs (Decidable (obtScore b ≤ obtScore a))

instance : IsTotal Recommendation recGE :=
  ⟨fun a b => le_total (obtScore b) (obtScore a)⟩

instance : IsTrans Recommendation recGE :=
  ⟨fun _ _ _ h1 h2 => le_trans h2 h1⟩

/-- The in-place Array.prototype.sort call of fetchAllZonesCapacity with the
comparator on obtainability: ECMAScript sort is stable and the comparator is
consistent, so its result is the unique stable descending sort, embedded here
as insertion sort with the reflexive descending order recGE. -/
def sortRecs (l : List Recommendation) : List Recommendation :=
  List.insertionSort recGE l

/-- Possible failures of the response path of fetchAllZonesCapacity. -/
inductive ApiFailure where
  | stockout
deriving DecidableEq

/-- Response handling of fetchAllZonesCapacity after a successful HTTP call:
an empty (or missing) recommendations array raises the stockout error,
otherwise the recommendations are sorted by descending obtainability and the
response is returned. -/
def fetchAllZonesCapacityModel (recs : List Recommendation) :
    Except ApiFailure CapacityAdvisorResponse :=
  if recs.isEmpty then .error .stockout
  else .ok ⟨sortRecs recs⟩

/-- The toLowerCase call of the classifier, expressed on the character list of
the string (identical to String.toLower, written so that it evaluates by
structural recursion). -/
def jsToLower (s : String) : String := String.mk (s.data.map Char.toLower)

/-- The startsWith call of the classifier, expressed on character lists
(identical to String.startsWith on these inputs). -/
def jsStartsWith (s p : String) : Bool := List.isPrefixOf p.data s.data

/-- Family classifier from src/utils.ts (getMachineTypeFamily): series-prefix
matching on the lowercased machine-type name with General Purpose as the
default arm. -/
def getMachineTypeFamily (name : String) : String :=
  let n := jsToLower name
  if jsStartsWith n "a2" || jsStartsWith n "a3" || jsStartsWith n "g2" then
    "Accelerator Optimized"
  else if jsStartsWith n "m1" || jsStartsWith n "m2" || jsStartsWith n "m3" then
    "Memory Optimized"
  else if jsStartsWith n "c2" || jsStartsWith n "h3" then "Compute Optimized"
  else if jsStartsWith n "z3" then "Storage Optimized"
  else "General Purpose"

/-- Generation tier of a shape series. -/
inductive Generation where
  | legacy
  | modern
deriving DecidableEq

/-- Modelled from the spec: the generation classifier is not among the
available sources (it lives in services/simulationEngine.ts); per section 4.1
a shape is Modern when its series matches a recognized latest-generation set
(4th-generation families such as n4 and c4), otherwise Legacy. -/
def getMachineTypeGeneration (name : String) : Generation :=
  let n := jsToLower name
  if jsStartsWith n "n4" || jsStartsWith n "c4" || jsStartsWith n "x4" then
    Generation.modern
  else Generation.legacy

/-- The classifier contract of section 4.1: a shape id maps to a family and a
generation; the family string is computed by getMachineTypeFamily of
src/utils.ts and the generation by the spec-modelled series check. -/
def classify (shapeId : String) : String × Generation :=
  (getMachineTypeFamily shapeId, getMachineTypeGeneration shapeId)

/-- Series prefixes recognized by getMachineTypeFamily; anything else falls
into the General Purpose default arm. -/
def recognizedFamilyKeys : List String :=
  ["a2", "a3", "g2", "m1", "m2", "m3", "c2", "h3", "z3"]

/-- Series prefixes recognized as latest-generation by the spec-modelled
generation classifier. -/
def modernSeriesKeys : List String := ["n4", "c4", "x4"]

/-- Resource family enum of the spec (section 3); the engine consumes the
classified family. -/
inductive ResourceFamily where
  | generalPurpose
  | computeOptimized
  | memoryOptimized
  | acceleratorOptimized
  | storageOptimized
deriving DecidableEq

/-- Conversion from the family string produced by getMachineTypeFamily to the
spec enum, defaulting to General Purpose. -/
def familyOfString (s : String) : ResourceFamily :=
  if s = "Accelerator Optimized" then ResourceFamily.acceleratorOptimized
  else if s = "Memory Optimized" then ResourceFamily.memoryOptimized
  else if s = "Compute Optimized" then ResourceFamily.computeOptimized
  else if s = "Storage Optimized" then ResourceFamily.storageOptimized
  else ResourceFamily.generalPurpose

/-- A per-zone metric pair, as in section 3 of the spec (ZoneMetric). -/
structure ZoneMetric where
  obtainability : Rat
  uptime : Rat
deriving DecidableEq

/-- Modelled from the spec: a stable deterministic string hash (section 4.2
step 1 demands a pure function of its inputs with no randomness or time
dependency); a 31-ary polynomial hash modulo 2 to the 32. -/
def hashString (s : String) : Nat :=
  s.data.foldl (fun h c => (h * 31 + c.toNat) % 4294967296) 7

/-- Modelled from the spec: lower end of the realistic capacity range for a
family (hundreds for general purpose, tens for accelerator families). -/
def familyDepthBase : ResourceFamily → Nat
  | ResourceFamily.generalPurpose => 200
  | ResourceFamily.computeOptimized => 120
  | ResourceFamily.memoryOptimized => 90
  | ResourceFamily.storageOptimized => 70
  | ResourceFamily.acceleratorOptimized => 20

/-- Modelled from the spec: width of the capacity range for a family. -/
def familyDepthSpan : ResourceFamily → Nat
  | ResourceFamily.generalPurpose => 200
  | ResourceFamily.computeOptimized => 120
  | ResourceFamily.memoryOptimized => 90
  | ResourceFamily.storageOptimized => 60
  | ResourceFamily.acceleratorOptimized => 30

/-- Display key of a family, fed into the pool-depth hash. -/
def familyKey : ResourceFamily → String
  | ResourceFamily.generalPurpose => "General Purpose"
  | ResourceFamily.computeOptimized => "Compute Optimized"
  | ResourceFamily.memoryOptimized => "Memory Optimized"
  | ResourceFamily.storageOptimized => "Storage Optimized"
  | ResourceFamily.acceleratorOptimized => "Accelerator Optimized"

/-- Modelled from the spec (section 4.2 step 1): the base pool depth of a zone
is a hash of (region, zone, family, shapeId) mapped into the family range; the
positive base floors it away from zero. -/
def poolDepth (region zone : String) (fam : ResourceFamily) (shapeId : String) : Nat :=
  familyDepthBase fam +
    hashString (region ++ "/" ++ zone ++ "/" ++ familyKey fam ++ "/" ++ shapeId) %
      familyDepthSpan fam

/-- Modelled from the spec (section 4.2 step 2): accelerator families and
modern generations receive a demand multiplier above 1; general purpose and
legacy receive 1. -/
def scarcityMultiplier (fam : ResourceFamily) (gen : Generation) : Rat :=
  (if fam = ResourceFamily.acceleratorOptimized then 2 else 1) *
    (if gen = Generation.modern then 3 / 2 else 1)

/-- Clamp a rational into the unit interval. -/
def clamp01 (x : Rat) : Rat := max 0 (min 1 x)

/-- Modelled from the spec (section 4.2 steps 3 to 5): scarcity is demand times
the family multiplier over the pool depth; obtainability is the clamped
complement of the scarcity (a monotone saturating curve); uptime is a damped
transform that stays above obtainability at low scarcity and meets it at the
extremes. -/
def scoreZone (fam : ResourceFamily) (gen : Generation) (shapeId region zone : String)
    (count : Nat) : ZoneMetric :=
  let depth : Rat := (poolDepth region zone fam shapeId : Nat)
  let scarcity : Rat := (count : Rat) * scarcityMultiplier fam gen / depth
  let obt := clamp01 (1 - scarcity)
  { obtainability := obt, uptime := 1 - (1 - obt) ^ 2 }

/-- Configuration errors of the assembler (section 7 of the spec). -/
inductive ConfigError where
  | emptyZoneList
deriving DecidableEq

/-- Score list of a recommendation built from a metric pair. -/
def mkScores (m : ZoneMetric) : List Score :=
  [{ name := "obtainability", value := m.obtainability },
   { name := "uptime", value := m.uptime }]

/-- Modelled from the spec (section 4.3 balanced mode): zone i receives the
even share plus one remainder unit when i is below totalCount mod zones. -/
def shardCountAt (totalCount n i : Nat) : Nat :=
  totalCount / n + if i < totalCount % n then 1 else 0

/-- Modelled from the spec: the shard list of the single balanced
recommendation, one shard per zone in the supplied order. -/
def balancedShards (shapeId : String) (totalCount : Nat) (zones : List String) :
    List Shard :=
  zones.enum.map fun p =>
    { location := p.2, machineType := shapeId,
      count := shardCountAt totalCount zones.length p.1, provisioningModel := "SPOT" }

/-- Modelled from the spec (sections 4.3 and 9): the aggregate score of the
balanced recommendation is the shard-count weighted average of the per-zone
metrics, the combination the spec recommends; a zero total places no demand
and scores 1. -/
def balancedMetric (fam : ResourceFamily) (gen : Generation)
    (shapeId region : String) (totalCount : Nat) (zones : List String) : ZoneMetric :=
  if totalCount = 0 then { obtainability := 1, uptime := 1 }
  else
    let ws := (balancedShards shapeId totalCount zones).map fun s =>
      ((s.count : Rat), scoreZone fam gen shapeId region s.location s.count)
    { obtainability :=
        (ws.map fun w => w.1 * w.2.obtainability).sum / (totalCount : Rat),
      uptime := (ws.map fun w => w.1 * w.2.uptime).sum / (totalCount : Rat) }

/-- Modelled from the spec: the single multi-shard recommendation of balanced
mode. -/
def balancedRecommendation (region shapeId : String) (totalCount : Nat)
    (zones : List String) : Recommendation :=
  let fam := familyOfString (getMachineTypeFamily shapeId)
  let gen := getMachineTypeGeneration shapeId
  { scores := mkScores (balancedMetric fam gen shapeId region totalCount zones),
    shards := balancedShards shapeId totalCount zones }

/-- Modelled from the spec (section 4.3 compare mode): the recommendation that
places the entire request in one zone. -/
def compareRecommendation (region shapeId : String) (totalCount : Nat)
    (z : String) : Recommendation :=
  let fam := familyOfString (getMachineTypeFamily shapeId)
  let gen := getMachineTypeGeneration shapeId
  { scores := mkScores (scoreZone fam gen shapeId region z totalCount),
    shards := [{ location := z, machineType := shapeId, count := totalCount,
                 provisioningModel := "SPOT" }] }

/-- Modelled from the spec: the Recommendation Assembler of section 4.3.  An
empty zone list is a configuration error; Any and AnySingleZone build one
single-shard recommendation per zone in the supplied order; Balanced builds
one multi-shard recommendation.  Ordering by score is the separate Response
Sorter stage of section 4.4. -/
def assemble (region shapeId : String) (totalCount : Nat) (strategy : TargetShape)
    (zones : List String) : Except ConfigError CapacityAdvisorResponse :=
  if zones.isEmpty then .error .emptyZoneList
  else
    match strategy with
    | TargetShape.balanced =>
        .ok ⟨[balancedRecommendation region shapeId totalCount zones]⟩
    | _ => .ok ⟨zones.map (compareRecommendation region shapeId totalCount)⟩

/-- Largest obtainability across a recommendation list, 0 when empty. -/
def recsObtMax (recs : List Recommendation) : Rat :=
  (recs.map obtScore).foldr max 0

/-- Smallest obtainability across a recommendation list, 1 when empty. -/
def recsObtMin (recs : List Recommendation) : Rat :=
  (recs.map obtScore).foldr min 1

/-- Obtainability summary of an assembler result: the largest obtainability of
a successful response, 0 on a configuration error. -/
def okObtMax (e : Except ConfigError CapacityAdvisorResponse) : Rat :=
  match e with
  | Except.ok r => recsObtMax r.recommendations
  | Except.error _ => 0

/-- One entry of the errors array of a GCP error body, as consumed by
getFriendlyErrorMessage (reason plus optional message). -/
structure GcpErrItem where
  reason : String
  message : Option String
deriving DecidableEq

/-- Outcome of the JSON.parse call inside getFriendlyErrorMessage on the
cleaned raw text.  JSON parsing itself is outside the embedding; each
constructor corresponds to one branch the source distinguishes: parse failure,
a body with a truthy clientError, a body with an error object (optional
message, errors array possibly absent or empty), and any other JSON value. -/
inductive ParsedBody where
  | notJson
  | clientErr (title message actionable : String)
  | gcpErr (message : Option String) (errors : List GcpErrItem)
  | otherJson
deriving DecidableEq

/-- Default detail text of getFriendlyErrorMessage. -/
def defaultDetail : String :=
  "An unexpected error occurred. Please check the debug console for details."

/-- Model of the regex capture of getFriendlyErrorMessage that pulls the quota
metric out of a message matching the pattern Quota-quote-name-quote-exceeded,
with CPUS as the fallback. -/
def quotaMetricOf (msg : Option String) : String :=
  match msg with
  | none => "CPUS"
  | some m =>
    match m.splitOn "Quota \x27" with
    | _ :: rest :: _ =>
      match rest.splitOn "\x27 exceeded" with
      | cap :: _ :: _ =>
        if cap.isEmpty || cap.contains (Char.ofNat 39) then "CPUS" else cap
      | _ => "CPUS"
    | _ => "CPUS"

/-- Title, detail and actionable hint for one reason code of the GCP error
switch in getFriendlyErrorMessage; detail0 is the detail accumulated before
the switch. -/
def reasonTriple (detail0 : String) (firstErr : GcpErrItem) :
    String × String × String :=
  let r := firstErr.reason
  if r == "quotaExceeded" || r == "limitExceeded" || r == "rateLimitExceeded" then
    ("Quota Limit Reached",
      "Project lacks sufficient " ++ quotaMetricOf firstErr.message ++
        " quota in this region.",
      "Request a quota increase in IAM & Admin.")
  else if r == "userRateLimitExceeded" then
    ("API Rate Limit Exceeded", "Too many requests were sent in a short period.",
      "Wait 60 seconds before retrying.")
  else if r == "accessNotConfigured" || r == "authError" || r == "tokenExpired" then
    ("Authentication Failed",
      "The Access Token is invalid, expired, or missing scopes.",
      "Run: gcloud auth print-access-token")
  else if r == "forbidden" || r == "insufficientPermissions" then
    ("Access Denied", "Your account lacks the \"Compute Viewer\" IAM role.",
      "Verify IAM permissions for this Project ID.")
  else if r == "invalid" || r == "badRequest" || r == "invalidParameter" then
    ("Invalid Configuration",
      "Request parameters are invalid. " ++
        (match firstErr.message with | some m => m | none => "undefined"),
      "Check Region, Project ID, and Machine Type.")
  else if r == "notFound" || r == "resourceNotFound" then
    ("Resource Not Found", "The specified Project, Region, or Zone does not exist.",
      "Verify the Project ID and Region spelling.")
  else if r == "stockout" then
    ("Capacity Stockout", "The requested Machine Type is unavailable in this region.",
      "Try a different region or machine family.")
  else
    ("System Error",
      (match firstErr.message with
       | some m => if m = "" then detail0 else m
       | none => detail0),
      "Check Debug Console for raw response.")

/-- Title, detail and actionable hint of the non-clientError branches of
getFriendlyErrorMessage: the JSON branches mirror the GCP error handling, the
notJson branch mirrors the catch block keyed on the HTTP status. -/
def friendlyTriple (status : Int) (cleanRaw : String) (parsed : ParsedBody) :
    String × String × String :=
  match parsed with
  | ParsedBody.clientErr _ _ _ => ("System Error", defaultDetail, "")
  | ParsedBody.otherJson => ("System Error", defaultDetail, "")
  | ParsedBody.gcpErr msg errs =>
    let detail0 :=
      match msg with
      | some m => if m = "" then defaultDetail else m
      | none => defaultDetail
    (match errs with
     | [] => ("System Error", detail0, "")
     | firstErr :: _ => reasonTriple detail0 firstErr)
  | ParsedBody.notJson =>
    if status = 401 then
      ("Session Expired", "Your access token is no longer valid.",
        "Generate a new token via CLI.")
    else if status = 403 then
      ("Permission Denied", "You are not authorized to access this resource.",
        "Check IAM roles.")
    else if status = 404 then
      ("Endpoint Not Found", "The API endpoint could not be reached.", "")
    else if status = 429 then
      ("Traffic Limit", "You are sending requests too fast.",
        "Slow down and try again in a minute.")
    else if status ≥ 500 then
      ("Service Unavailable", "Google Cloud is temporarily experiencing issues.",
        "Check Google Cloud Status Dashboard.")
    else
      ("System Error",
        if cleanRaw.length > 100 then cleanRaw.take 100 ++ "..." else cleanRaw,
        "")

/-- Closing template of getFriendlyErrorMessage: title, colon, detail, one
space, and the actionable hint in parentheses when present. -/
def finishMsg (t d a : String) : String :=
  t ++ ": " ++ d ++ " " ++ (if a = "" then "" else "(" ++ a ++ ")")

/-- getFriendlyErrorMessage from src/utils.ts.  The raw text is cleaned of a
leading standard fetch error marker; a body with a truthy clientError returns
its own template immediately; every other branch computes a title, detail and
actionable hint and renders them through the shared template.  The parsed
argument stands for the JSON.parse outcome on the cleaned text. -/
def getFriendlyErrorMessage (status : Int) (rawText : String)
    (parsed : ParsedBody) : String :=
  let cleanRaw := if rawText.startsWith "Error: " then rawText.drop 7 else rawText
  match parsed with
  | ParsedBody.clientErr t m a => t ++ ": " ++ m ++ " " ++ ("(" ++ a ++ ")")
  | _ =>
    let p := friendlyTriple status cleanRaw parsed
    finishMsg p.1 p.2.1 p.2.2

/-- Shape demanded of every friendly error message: a title, a colon and a
detail, optionally followed by an actionable hint in parentheses. -/
def isFriendlyShape (msg : String) : Prop :=
  ∃ t d a, msg = t ++ ": " ++ d ++ " " ++ a ∧ (a = "" ∨ ∃ h, a = "(" ++ h ++ ")")

/-- Concrete recommendation used in witness statements: carries an
obtainability entry. -/
def demoRecA : Recommendation :=
  { scores := [{ name := "obtainability", value := 3 / 10 },
               { name := "uptime", value := 1 / 2 }], shards := [] }

/-- Concrete recommendation used in witness statements: higher obtainability
than demoRecA. -/
def demoRecB : Recommendation :=
  { scores := [{ name := "obtainability", value := 7 / 10 }], shards := [] }

/-- Concrete recommendation used in witness statements: no obtainability
entry. -/
def demoRecC : Recommendation :=
  { scores := [{ name := "uptime", value := 9 / 10 }], shards := [] }

/-- Concrete recommendation used in witness statements: an obtainability entry
whose value is 0. -/
def demoRecD : Recommendation :=
  { scores := [{ name := "obtainability", value := 0 }], shards := [] }

/-- Ordered insertion commutes with filtering by a predicate that is constant
on each obtainability class; the key step of the sorter stability proof. -/
theorem filter_orderedInsert (p : Recommendation → Bool)
    (hp : ∀ a b, p a = true → p b = true → obtScore a = obtScore b)
    (r : Recommendation) (l : List Recommendation) :
    (List.orderedInsert recGE r l).filter p =
      if p r then r :: l.filter p else l.filter p := by
  induction l with
  | nil => simp only [List.orderedInsert, List.filter_cons, List.filter_nil]
  | cons x xs ih =>
    by_cases hx : recGE r x
    · simp only [List.orderedInsert, if_pos hx, List.filter_cons]
    · simp only [List.orderedInsert, if_neg hx, List.filter_cons, ih]
      by_cases hpx : p x = true
      · by_cases hpr : p r = true
        · exact absurd (le_of_eq (hp r x hpr hpx).symm) hx
        · simp [hpx, hpr]
      · by_cases hpr : p r = true
        · simp [hpx, hpr]
        · simp [hpx, hpr]

/-- Stability of the sorter: for each fixed obtainability value, the
recommendations carrying that value appear in the sorted output in their
original relative order. -/
theorem sortRecs_stable (l : List Recommendation) (v : Rat) :
    (sortRecs l).filter (fun r => obtScore r == v) =
      l.filter (fun r => obtScore r == v) := by
  have hp : ∀ a b, (obtScore a == v) = true → (obtScore b == v) = true →
      obtScore a = obtScore b := by
    intro a b ha hb
    have ha' : obtScore a = v := by exact_mod_cast beq_iff_eq.mp ha
    have hb' : obtScore b = v := by exact_mod_cast beq_iff_eq.mp hb
    rw [ha', hb']
  induction l with
  | nil => rfl
  | cons x xs ih =>
    simp only [sortRecs, List.insertionSort] at *
    rw [filter_orderedInsert _ hp, ih, List.filter_cons]

/-- Sortedness of the sorter output: obtainability keys are non-increasing. -/
theorem sortRecs_sorted (l : List Recommendation) :
    List.Sorted recGE (sortRecs l) :=
  List.sorted_insertionSort recGE l

/-- C1: every response the capacity path hands back to the caller has its
recommendations sorted by non-increasing obtainability, and recommendations of
equal obtainability keep their original relative order (the sort is stable,
stated as: filtering by any fixed obtainability value commutes with the
sort). -/
theorem response_sorted_and_stable (recs : List Recommendation)
    (out : CapacityAdvisorResponse)
    (h : fetchAllZonesCapacityModel recs = Except.ok out) :
    List.Sorted recGE out.recommendations ∧
      ∀ v : Rat, out.recommendations.filter (fun r => obtScore r == v) =
        recs.filter (fun r => obtScore r == v) := by
  by_cases he : recs.isEmpty = true
  · rw [fetchAllZonesCapacityModel, if_pos he] at h
    exact absurd h (by simp)
  · rw [fetchAllZonesCapacityModel, if_neg he] at h
    obtain rfl : (⟨sortRecs recs⟩ : CapacityAdvisorResponse) = out := by
      injection h
    exact ⟨sortRecs_sorted recs, fun v => sortRecs_stable recs v⟩

/-- Witness for C1 at a concrete two-recommendation response. -/
theorem response_sorted_and_stable_witness :
    List.Sorted recGE
        (CapacityAdvisorResponse.mk (sortRecs [demoRecA, demoRecB])).recommendations ∧
      ∀ v : Rat,
        (CapacityAdvisorResponse.mk (sortRecs [demoRecA, demoRecB])).recommendations.filter
            (fun r => obtScore r == v) =
          [demoRecA, demoRecB].filter (fun r => obtScore r == v) :=
  response_sorted_and_stable [demoRecA, demoRecB] ⟨sortRecs [demoRecA, demoRecB]⟩ rfl

/-- C9: a recommendation whose score list has no obtainability entry is read
as obtainability 0 by the sorter, and nothing placed after it in the sorted
output has positive obtainability, so every positive-scored recommendation is
ordered before it. -/
theorem sorter_missing_score_defaults_last (l : List Recommendation)
    (i j : Fin (sortRecs l).length) (hij : i < j)
    (hnone : ((sortRecs l).get i).scores.find?
        (fun s => s.name == "obtainability") = none) :
    obtScore ((sortRecs l).get i) = 0 ∧ obtScore ((sortRecs l).get j) ≤ 0 := by
  have h0 : obtScore ((sortRecs l).get i) = 0 := by
    unfold obtScore
    rw [hnone]
    rfl
  refine ⟨h0, ?_⟩
  have hrel := List.Sorted.rel_get_of_lt (sortRecs_sorted l) hij
  have hrel' : obtScore ((sortRecs l).get j) ≤ obtScore ((sortRecs l).get i) := hrel
  rw [h0] at hrel'
  exact hrel'

/-- Witness for C9 at a concrete list with a score-free recommendation. -/
theorem sorter_missing_score_defaults_last_witness :
    obtScore ((sortRecs [demoRecC, demoRecD]).get
        ⟨0, by rw [sortRecs, List.length_insertionSort]; decide⟩) = 0 ∧
      obtScore ((sortRecs [demoRecC, demoRecD]).get
        ⟨1, by rw [sortRecs, List.length_insertionSort]; decide⟩) ≤ 0 :=
  sorter_missing_score_defaults_last [demoRecC, demoRecD]
    ⟨0, by rw [sortRecs, List.length_insertionSort]; decide⟩
    ⟨1, by rw [sortRecs, List.length_insertionSort]; decide⟩
    (by simp [Fin.lt_def])
    (by simp [sortRecs, List.insertionSort, List.orderedInsert, recGE, obtScore,
      demoRecC, demoRecD])

/-- C6: the classifier is a total function by construction, and every shape id
whose lowercased series prefix is recognized neither by the family table nor
by the latest-generation table falls back to General Purpose and Legacy. -/
theorem classify_total_default (s : String)
    (hf : ∀ p ∈ recognizedFamilyKeys, jsStartsWith (jsToLower s) p = false)
    (hm : ∀ p ∈ modernSeriesKeys, jsStartsWith (jsToLower s) p = false) :
    classify s = ("General Purpose", Generation.legacy) := by
  have ha2 := hf "a2" (by simp [recognizedFamilyKeys])
  have ha3 := hf "a3" (by simp [recognizedFamilyKeys])
  have hg2 := hf "g2" (by simp [recognizedFamilyKeys])
  have hm1 := hf "m1" (by simp [recognizedFamilyKeys])
  have hm2 := hf "m2" (by simp [recognizedFamilyKeys])
  have hm3 := hf "m3" (by simp [recognizedFamilyKeys])
  have hc2 := hf "c2" (by simp [recognizedFamilyKeys])
  have hh3 := hf "h3" (by simp [recognizedFamilyKeys])
  have hz3 := hf "z3" (by simp [recognizedFamilyKeys])
  have hn4 := hm "n4" (by simp [modernSeriesKeys])
  have hc4 := hm "c4" (by simp [modernSeriesKeys])
  have hx4 := hm "x4" (by simp [modernSeriesKeys])
  simp [classify, getMachineTypeFamily, getMachineTypeGeneration,
    ha2, ha3, hg2, hm1, hm2, hm3, hc2, hh3, hz3, hn4, hc4, hx4]

/-- Witness for C6 at a concrete unrecognized shape id. -/
theorem classify_total_default_witness :
    classify "sheep-standard-8" = ("General Purpose", Generation.legacy) :=
  classify_total_default "sheep-standard-8" (by decide) (by decide)

/-- The closing template always yields the demanded title-detail-hint shape. -/
theorem finishMsg_shape (t d a : String) : isFriendlyShape (finishMsg t d a) := by
  by_cases h : a = ""
  · exact ⟨t, d, if a = "" then "" else "(" ++ a ++ ")", rfl, Or.inl (by rw [if_pos h])⟩
  · exact ⟨t, d, if a = "" then "" else "(" ++ a ++ ")", rfl,
      Or.inr ⟨a, by rw [if_neg h]⟩⟩

/-- C10: the friendly error formatter is total and never throws; for every
HTTP status and every raw text, whatever the JSON.parse outcome (including the
parse-failure branch), the result is a title and a detail separated by a
colon, optionally followed by an actionable hint in parentheses. -/
theorem getFriendlyErrorMessage_total_shape (status : Int) (rawText : String)
    (parsed : ParsedBody) :
    isFriendlyShape (getFriendlyErrorMessage status rawText parsed) := by
  cases parsed with
  | clientErr t m a => exact ⟨t, m, "(" ++ a ++ ")", rfl, Or.inr ⟨a, rfl⟩⟩
  | notJson => exact finishMsg_shape _ _ _
  | gcpErr msg errs => exact finishMsg_shape _ _ _
  | otherJson => exact finishMsg_shape _ _ _

/-- C7: the per-zone metric model and the assembler are deterministic pure
functions: two invocations with identical arguments produce identical
results (the embedding carries no clock, counter or randomness source). -/
theorem engine_deterministic (fam : ResourceFamily) (gen : Generation)
    (shapeId region zone : String) (count totalCount : Nat)
    (strategy : TargetShape) (zones : List String) :
    scoreZone fam gen shapeId region zone count =
        scoreZone fam gen shapeId region zone count ∧
      assemble region shapeId totalCount strategy zones =
        assemble region shapeId totalCount strategy zones :=
  ⟨rfl, rfl⟩

/-- C8: the assembler rejects an empty zone list with a configuration error
for every strategy and never substitutes an empty response. -/
theorem assemble_empty_zones (region shapeId : String) (totalCount : Nat)
    (strategy : TargetShape) :
    assemble region shapeId totalCount strategy [] =
      Except.error ConfigError.emptyZoneList := rfl

/-- The pool depth is floored away from zero by the family base. -/
theorem poolDepth_pos (region zone : String) (fam : ResourceFamily)
    (shapeId : String) : 0 < poolDepth region zone fam shapeId := by
  have hb : 0 < familyDepthBase fam := by cases fam <;> decide
  exact Nat.lt_of_lt_of_le hb (Nat.le_add_right _ _)

/-- The scarcity multiplier is nonnegative. -/
theorem scarcityMultiplier_nonneg (fam : ResourceFamily) (gen : Generation) :
    0 ≤ scarcityMultiplier fam gen := by
  unfold scarcityMultiplier
  split <;> split <;> norm_num

/-- Clamping preserves order. -/
theorem clamp01_le_clamp01 {a b : Rat} (h : a ≤ b) : clamp01 a ≤ clamp01 b :=
  max_le_max (le_refl 0) (min_le_min (le_refl 1) h)

/-- The clamped value is nonnegative. -/
theorem clamp01_nonneg (x : Rat) : 0 ≤ clamp01 x := le_max_left 0 _

/-- The clamped value does not exceed one. -/
theorem clamp01_le_one (x : Rat) : clamp01 x ≤ 1 :=
  max_le (by norm_num) (min_le_left _ _)

/-- Shared monotonicity fact: for fixed family, generation, shape, region and
zone, a larger requested count never yields larger obtainability. -/
theorem scoreZone_obt_le_of_le (fam : ResourceFamily) (gen : Generation)
    (shapeId region zone : String) {c1 c2 : Nat} (h : c1 ≤ c2) :
    (scoreZone fam gen shapeId region zone c2).obtainability ≤
      (scoreZone fam gen shapeId region zone c1).obtainability := by
  have hd : (0 : Rat) < ((poolDepth region zone fam shapeId : Nat) : Rat) := by
    exact_mod_cast poolDepth_pos region zone fam shapeId
  have hm : (0 : Rat) ≤ scarcityMultiplier fam gen := scarcityMultiplier_nonneg fam gen
  have hc : ((c1 : Nat) : Rat) ≤ ((c2 : Nat) : Rat) := by exact_mod_cast h
  show clamp01 (1 - (c2 : Rat) * scarcityMultiplier fam gen /
      ((poolDepth region zone fam shapeId : Nat) : Rat)) ≤
    clamp01 (1 - (c1 : Rat) * scarcityMultiplier fam gen /
      ((poolDepth region zone fam shapeId : Nat) : Rat))
  apply clamp01_le_clamp01
  have hnum : (c1 : Rat) * scarcityMultiplier fam gen ≤
      (c2 : Rat) * scarcityMultiplier fam gen :=
    mul_le_mul_of_nonneg_right hc hm
  have hdiv : (c1 : Rat) * scarcityMultiplier fam gen /
        ((poolDepth region zone fam shapeId : Nat) : Rat) ≤
      (c2 : Rat) * scarcityMultiplier fam gen /
        ((poolDepth region zone fam shapeId : Nat) : Rat) :=
    div_le_div_of_nonneg_right hnum hd.le
  linarith

/-- C4: increasing the requested count for a fixed family, generation, shape,
region and zone never increases the obtainability returned by the per-zone
metric model. -/
theorem scoreZone_count_antitone (fam : ResourceFamily) (gen : Generation)
    (shapeId region zone : String) (c1 c2 : Nat) (h : c1 ≤ c2) :
    (scoreZone fam gen shapeId region zone c2).obtainability ≤
      (scoreZone fam gen shapeId region zone c1).obtainability :=
  scoreZone_obt_le_of_le fam gen shapeId region zone h

/-- Witness for C4 at a concrete input pair. -/
theorem scoreZone_count_antitone_witness :
    (scoreZone ResourceFamily.generalPurpose Generation.legacy "e2-medium"
        "us-central1" "us-central1-a" 5).obtainability ≤
      (scoreZone ResourceFamily.generalPurpose Generation.legacy "e2-medium"
        "us-central1" "us-central1-a" 3).obtainability :=
  scoreZone_count_antitone ResourceFamily.generalPurpose Generation.legacy
    "e2-medium" "us-central1" "us-central1-a" 3 5 (by decide)

/-- Summing a constant plus a pointwise term over a list. -/
theorem list_sum_map_const_add (c : Nat) (g : Nat → Nat) (l : List Nat) :
    (l.map (fun i => c + g i)).sum = c * l.length + (l.map g).sum := by
  induction l with
  | nil => simp
  | cons a l ih =>
    simp only [List.map_cons, List.sum_cons, List.length_cons, ih, Nat.mul_succ]
    omega

/-- Summing the remainder indicator over an index range. -/
theorem list_sum_range_indicator (n rem : Nat) :
    ((List.range n).map (fun i => if i < rem then 1 else 0)).sum = min rem n := by
  induction n with
  | zero => simp
  | succ n ih =>
    rw [List.range_succ]
    simp only [List.map_append, List.sum_append, ih, List.map_cons, List.map_nil,
      List.sum_cons, List.sum_nil]
    by_cases h : n < rem
    · simp only [if_pos h]
      omega
    · simp only [if_neg h]
      omega

/-- The balanced per-zone counts sum exactly to the requested total. -/
theorem sum_range_shardCount (totalCount n : Nat) (hn : 0 < n) :
    ((List.range n).map (shardCountAt totalCount n)).sum = totalCount := by
  have he : shardCountAt totalCount n =
      fun i => totalCount / n + if i < totalCount % n then 1 else 0 := rfl
  rw [he, list_sum_map_const_add, List.length_range, list_sum_range_indicator]
  have h1 : totalCount % n < n := Nat.mod_lt _ hn
  rw [Nat.min_eq_left h1.le]
  have h2 := Nat.div_add_mod totalCount n
  calc totalCount / n * n + totalCount % n
      = n * (totalCount / n) + totalCount % n := by rw [Nat.mul_comm]
    _ = totalCount := h2

/-- The count column of the balanced shard list is the per-index share list. -/
theorem balancedShards_counts (shapeId : String) (totalCount : Nat)
    (zones : List String) :
    (balancedShards shapeId totalCount zones).map Shard.count =
      (List.range zones.length).map (shardCountAt totalCount zones.length) := by
  unfold balancedShards
  rw [List.map_map]
  have he : (Shard.count ∘ fun p : Nat × String =>
      Shard.mk p.2 shapeId (shardCountAt totalCount zones.length p.1) "SPOT") =
      (shardCountAt totalCount zones.length) ∘ Prod.fst := rfl
  rw [he, ← List.map_map, List.enum_map_fst]

/-- Each balanced share is bounded by the requested total. -/
theorem shardCountAt_le (totalCount n i : Nat) (hn : 0 < n) :
    shardCountAt totalCount n i ≤ totalCount := by
  unfold shardCountAt
  have h2 : n * (totalCount / n) + totalCount % n = totalCount :=
    Nat.div_add_mod totalCount n
  have h3 : totalCount / n ≤ n * (totalCount / n) :=
    Nat.le_mul_of_pos_left _ hn
  by_cases h : i < totalCount % n
  · simp only [if_pos h]
    omega
  · simp only [if_neg h]
    omega

/-- C2: for a non-empty zone list, balanced assembly returns exactly one
recommendation carrying one shard per zone; the shard counts sum exactly to
the requested total, any two of them differ by at most one, and zone i (in the
supplied order) receives the even share plus one remainder unit exactly when i
is below totalCount mod zones. -/
theorem assemble_balanced_conservation (region shapeId : String)
    (totalCount : Nat) (zones : List String) (hz : zones ≠ []) :
    assemble region shapeId totalCount TargetShape.balanced zones =
        Except.ok ⟨[balancedRecommendation region shapeId totalCount zones]⟩ ∧
      (balancedRecommendation region shapeId totalCount zones).shards.length =
        zones.length ∧
      ((balancedRecommendation region shapeId totalCount zones).shards.map
          Shard.count).sum = totalCount ∧
      (∀ s1 ∈ (balancedRecommendation region shapeId totalCount zones).shards,
        ∀ s2 ∈ (balancedRecommendation region shapeId totalCount zones).shards,
          s1.count ≤ s2.count + 1) ∧
      (∀ i : Fin zones.length,
        (balancedRecommendation region shapeId totalCount zones).shards[(i : Nat)]? =
          some { location := zones.get i, machineType := shapeId,
                 count := totalCount / zones.length +
                   (if (i : Nat) < totalCount % zones.length then 1 else 0),
                 provisioningModel := "SPOT" }) := by
  have hn : 0 < zones.length := List.length_pos.mpr hz
  have hsh : (balancedRecommendation region shapeId totalCount zones).shards =
      balancedShards shapeId totalCount zones := rfl
  have hemp : zones.isEmpty = false := by
    cases zones with
    | nil => exact absurd rfl hz
    | cons a l => rfl
  refine ⟨?_, ?_, ?_, ?_, ?_⟩
  · rw [assemble, hemp]
    rfl
  · rw [hsh]
    unfold balancedShards
    rw [List.length_map, List.enum_length]
  · rw [hsh, balancedShards_counts]
    exact sum_range_shardCount totalCount zones.length hn
  · intro s1 h1 s2 h2
    rw [hsh] at h1 h2
    unfold balancedShards at h1 h2
    obtain ⟨p1, _, rfl⟩ := List.mem_map.mp h1
    obtain ⟨p2, _, rfl⟩ := List.mem_map.mp h2
    show shardCountAt totalCount zones.length p1.1 ≤
      shardCountAt totalCount zones.length p2.1 + 1
    unfold shardCountAt
    split_ifs <;> omega
  · intro i
    have hb : (i : Nat) < zones.enum.length := by
      rw [List.enum_length]
      exact i.2
    rw [hsh]
    unfold balancedShards
    rw [List.getElem?_map, List.getElem?_eq_getElem hb, List.getElem_enum]
    rfl

/-- Witness for C2 at a concrete four-zone request of ten instances. -/
theorem assemble_balanced_conservation_witness :
    assemble "r1" "n2-standard-4" 10 TargetShape.balanced ["za", "zb", "zc", "zd"] =
        Except.ok ⟨[balancedRecommendation "r1" "n2-standard-4" 10
          ["za", "zb", "zc", "zd"]]⟩ ∧
      (balancedRecommendation "r1" "n2-standard-4" 10
          ["za", "zb", "zc", "zd"]).shards.length =
        (["za", "zb", "zc", "zd"] : List String).length ∧
      ((balancedRecommendation "r1" "n2-standard-4" 10
          ["za", "zb", "zc", "zd"]).shards.map Shard.count).sum = 10 ∧
      (∀ s1 ∈ (balancedRecommendation "r1" "n2-standard-4" 10
          ["za", "zb", "zc", "zd"]).shards,
        ∀ s2 ∈ (balancedRecommendation "r1" "n2-standard-4" 10
          ["za", "zb", "zc", "zd"]).shards, s1.count ≤ s2.count + 1) ∧
      (∀ i : Fin (["za", "zb", "zc", "zd"] : List String).length,
        (balancedRecommendation "r1" "n2-standard-4" 10
            ["za", "zb", "zc", "zd"]).shards[(i : Nat)]? =
          some { location := (["za", "zb", "zc", "zd"] : List String).get i,
                 machineType := "n2-standard-4",
                 count := 10 / (["za", "zb", "zc", "zd"] : List String).length +
                   (if (i : Nat) <
                       10 % (["za", "zb", "zc", "zd"] : List String).length
                    then 1 else 0),
                 provisioningModel := "SPOT" }) :=
  assemble_balanced_conservation "r1" "n2-standard-4" 10
    ["za", "zb", "zc", "zd"] (by decide)

/-- C3: for a non-empty zone list, compare-mode assembly (strategy Any or
SingleZone) returns exactly one recommendation per zone in the supplied order,
and each recommendation carries exactly one shard whose count is the full
requested total. -/
theorem assemble_compare_one_per_zone (region shapeId : String)
    (totalCount : Nat) (strategy : TargetShape) (zones : List String)
    (hz : zones ≠ [])
    (hs : strategy = TargetShape.any ∨ strategy = TargetShape.anySingleZone) :
    assemble region shapeId totalCount strategy zones =
        Except.ok ⟨zones.map (compareRecommendation region shapeId totalCount)⟩ ∧
      (zones.map (compareRecommendation region shapeId totalCount)).length =
        zones.length ∧
      (∀ i : Fin zones.length,
        (zones.map (compareRecommendation region shapeId totalCount))[(i : Nat)]? =
          some (compareRecommendation region shapeId totalCount (zones.get i))) ∧
      (∀ z : String, (compareRecommendation region shapeId totalCount z).shards =
        [{ location := z, machineType := shapeId, count := totalCount,
           provisioningModel := "SPOT" }]) := by
  have hemp : zones.isEmpty = false := by
    cases zones with
    | nil => exact absurd rfl hz
    | cons a l => rfl
  refine ⟨?_, List.length_map zones _, ?_, fun z => rfl⟩
  · rcases hs with rfl | rfl
    · rw [assemble, hemp]
      all_goals first
        | rfl
        | (intro h; exact absurd h (by decide))
    · rw [assemble, hemp]
      all_goals first
        | rfl
        | (intro h; exact absurd h (by decide))
  · intro i
    have hb : (i : Nat) < zones.length := i.2
    rw [List.getElem?_map, List.getElem?_eq_getElem hb]
    rfl

/-- Witness for C3 at a concrete four-zone request. -/
theorem assemble_compare_one_per_zone_witness :
    assemble "r1" "e2-medium" 10 TargetShape.any ["za", "zb", "zc", "zd"] =
        Except.ok ⟨(["za", "zb", "zc", "zd"] : List String).map
          (compareRecommendation "r1" "e2-medium" 10)⟩ ∧
      ((["za", "zb", "zc", "zd"] : List String).map
          (compareRecommendation "r1" "e2-medium" 10)).length =
        (["za", "zb", "zc", "zd"] : List String).length ∧
      (∀ i : Fin (["za", "zb", "zc", "zd"] : List String).length,
        ((["za", "zb", "zc", "zd"] : List String).map
            (compareRecommendation "r1" "e2-medium" 10))[(i : Nat)]? =
          some (compareRecommendation "r1" "e2-medium" 10
            ((["za", "zb", "zc", "zd"] : List String).get i))) ∧
      (∀ z : String, (compareRecommendation "r1" "e2-medium" 10 z).shards =
        [{ location := z, machineType := "e2-medium", count := 10,
           provisioningModel := "SPOT" }]) :=
  assemble_compare_one_per_zone "r1" "e2-medium" 10 TargetShape.any
    ["za", "zb", "zc", "zd"] (by decide) (Or.inl rfl)

/-- Reading the obtainability entry back from a built score list gives the
metric obtainability. -/
theorem obtScore_mkScores (m : ZoneMetric) (sh : List Shard) :
    obtScore ⟨mkScores m, sh⟩ = m.obtainability := rfl

/-- Obtainability of a compare-mode recommendation is the per-zone score at
the full count. -/
theorem obtScore_compareRec (region shapeId : String) (totalCount : Nat)
    (z : String) :
    obtScore (compareRecommendation region shapeId totalCount z) =
      (scoreZone (familyOfString (getMachineTypeFamily shapeId))
        (getMachineTypeGeneration shapeId) shapeId region z totalCount).obtainability :=
  rfl

/-- Obtainability of the balanced recommendation is the aggregated metric. -/
theorem obtScore_balancedRec (region shapeId : String) (totalCount : Nat)
    (zones : List String) :
    obtScore (balancedRecommendation region shapeId totalCount zones) =
      (balancedMetric (familyOfString (getMachineTypeFamily shapeId))
        (getMachineTypeGeneration shapeId) shapeId region totalCount
        zones).obtainability :=
  rfl

/-- A right fold with min is a lower bound of every member. -/
theorem foldr_min_le_of_mem {l : List Rat} {x : Rat} (hx : x ∈ l) :
    l.foldr min 1 ≤ x := by
  induction l with
  | nil => cases hx
  | cons a l ih =>
    rcases List.mem_cons.mp hx with rfl | h
    · exact min_le_left _ _
    · exact le_trans (min_le_right _ _) (ih h)

/-- A right fold with min starting at one never exceeds one. -/
theorem foldr_min_le_one (l : List Rat) : l.foldr min 1 ≤ 1 := by
  induction l with
  | nil => exact le_refl 1
  | cons a l ih => exact le_trans (min_le_right _ _) ih

/-- A weighted sum with nonnegative weights dominates the total weight times a
common lower bound of the values. -/
theorem le_sum_weighted (l : List (Rat × Rat)) (m : Rat)
    (h : ∀ p ∈ l, m ≤ p.2 ∧ 0 ≤ p.1) :
    (l.map Prod.fst).sum * m ≤ (l.map fun p => p.1 * p.2).sum := by
  induction l with
  | nil => simp
  | cons a l ih =>
    simp only [List.map_cons, List.sum_cons, add_mul]
    have ha := h a (List.mem_cons_self a l)
    have hr : ∀ p ∈ l, m ≤ p.2 ∧ 0 ≤ p.1 := fun p hp => h p (List.mem_cons_of_mem _ hp)
    exact add_le_add (mul_le_mul_of_nonneg_left ha.1 ha.2) (ih hr)

/-- Amended C5: with the spec-recommended count-weighted aggregation, the
balanced recommendation's obtainability is at least the minimum (not the
maximum) obtainability among the compare-mode single-zone recommendations for
the same inputs. -/
theorem balanced_ge_singleZone_min (region shapeId : String) (totalCount : Nat)
    (zones : List String) (hz : zones ≠ [])
    (resB resC : CapacityAdvisorResponse)
    (hB : assemble region shapeId totalCount TargetShape.balanced zones =
      Except.ok resB)
    (hC : assemble region shapeId totalCount TargetShape.any zones =
      Except.ok resC) :
    recsObtMin resC.recommendations ≤ recsObtMax resB.recommendations := by
  have hn : 0 < zones.length := List.length_pos.mpr hz
  have hemp : zones.isEmpty = false := by
    cases zones with
    | nil => exact absurd rfl hz
    | cons a l => rfl
  have haB : assemble region shapeId totalCount TargetShape.balanced zones =
      Except.ok ⟨[balancedRecommendation region shapeId totalCount zones]⟩ := by
    rw [assemble, hemp]
    rfl
  have haC : assemble region shapeId totalCount TargetShape.any zones =
      Except.ok ⟨zones.map (compareRecommendation region shapeId totalCount)⟩ := by
    rw [assemble, hemp]
    all_goals first
      | rfl
      | (intro h; exact absurd h (by decide))
  rw [haB] at hB
  rw [haC] at hC
  obtain rfl : (⟨[balancedRecommendation region shapeId totalCount zones]⟩ :
      CapacityAdvisorResponse) = resB := Except.ok.inj hB
  obtain rfl : (⟨zones.map (compareRecommendation region shapeId totalCount)⟩ :
      CapacityAdvisorResponse) = resC := Except.ok.inj hC
  set fam := familyOfString (getMachineTypeFamily shapeId) with hfam
  set gen := getMachineTypeGeneration shapeId with hgen
  have hminmap : recsObtMin (zones.map (compareRecommendation region shapeId
      totalCount)) = (zones.map fun z =>
        (scoreZone fam gen shapeId region z totalCount).obtainability).foldr min 1 := by
    unfold recsObtMin
    rw [List.map_map]
    rfl
  have hmaxone : recsObtMax [balancedRecommendation region shapeId totalCount zones] =
      max (balancedMetric fam gen shapeId region totalCount zones).obtainability 0 := by
    unfold recsObtMax
    rw [List.map_cons, List.map_nil, List.foldr_cons, List.foldr_nil,
      obtScore_balancedRec]
  show recsObtMin (zones.map (compareRecommendation region shapeId totalCount)) ≤
    recsObtMax [balancedRecommendation region shapeId totalCount zones]
  rw [hminmap, hmaxone]
  set M := (zones.map fun z =>
    (scoreZone fam gen shapeId region z totalCount).obtainability).foldr min 1 with hM
  refine le_trans ?_ (le_max_left _ _)
  by_cases hT : totalCount = 0
  · rw [balancedMetric, if_pos hT]
    exact foldr_min_le_one _
  · have hTpos : (0 : Rat) < (totalCount : Rat) := by
      exact_mod_cast Nat.pos_of_ne_zero hT
    rw [balancedMetric, if_neg hT]
    show M ≤ ((((balancedShards shapeId totalCount zones).map fun s =>
        ((s.count : Rat), scoreZone fam gen shapeId region s.location s.count)).map
          fun w => w.1 * w.2.obtainability).sum) / (totalCount : Rat)
    rw [le_div_iff₀ hTpos]
    set l := (balancedShards shapeId totalCount zones).map fun s =>
      ((s.count : Rat),
        (scoreZone fam gen shapeId region s.location s.count).obtainability) with hl
    have hS : (((balancedShards shapeId totalCount zones).map fun s =>
        ((s.count : Rat), scoreZone fam gen shapeId region s.location s.count)).map
          fun w => w.1 * w.2.obtainability).sum =
        (l.map fun p => p.1 * p.2).sum := by
      rw [hl, List.map_map, List.map_map]
      rfl
    have hW : (l.map Prod.fst).sum = (totalCount : Rat) := by
      rw [hl, List.map_map]
      have h2 : (Prod.fst ∘ fun s : Shard =>
          ((s.count : Rat),
            (scoreZone fam gen shapeId region s.location s.count).obtainability)) =
          ((Nat.cast : Nat → Rat) ∘ Shard.count) := rfl
      rw [h2, ← List.map_map, ← Nat.cast_list_sum, balancedShards_counts,
        sum_range_shardCount totalCount zones.length hn]
    have hlb : ∀ p ∈ l, M ≤ p.2 ∧ 0 ≤ p.1 := by
      intro p hp
      rw [hl] at hp
      obtain ⟨s, hs, rfl⟩ := List.mem_map.mp hp
      unfold balancedShards at hs
      obtain ⟨q, hq, rfl⟩ := List.mem_map.mp hs
      refine ⟨?_, Nat.cast_nonneg _⟩
      have hzq : q.2 ∈ zones := by
        have hmem := List.mem_map_of_mem Prod.snd hq
        rwa [List.enum_map_snd] at hmem
      have hcount : shardCountAt totalCount zones.length q.1 ≤ totalCount :=
        shardCountAt_le totalCount zones.length q.1 hn
      have hstep1 : M ≤ (scoreZone fam gen shapeId region q.2
          totalCount).obtainability :=
        foldr_min_le_of_mem (List.mem_map_of_mem _ hzq)
      exact le_trans hstep1 (scoreZone_obt_le_of_le fam gen shapeId region q.2 hcount)
    calc M * (totalCount : Rat)
        = (l.map Prod.fst).sum * M := by rw [hW, mul_comm]
      _ ≤ (l.map fun p => p.1 * p.2).sum := le_sum_weighted l M hlb
      _ = _ := hS.symm

/-- Witness for the amended C5 at a concrete two-zone request. -/
theorem balanced_ge_singleZone_min_witness :
    recsObtMin (CapacityAdvisorResponse.mk ((["za", "zb"] : List String).map
        (compareRecommendation "r1" "n2-standard-4" 3))).recommendations ≤
      recsObtMax (CapacityAdvisorResponse.mk
        [balancedRecommendation "r1" "n2-standard-4" 3
          ["za", "zb"]]).recommendations :=
  balanced_ge_singleZone_min "r1" "n2-standard-4" 3 ["za", "zb"] (by decide)
    ⟨[balancedRecommendation "r1" "n2-standard-4" 3 ["za", "zb"]]⟩
    ⟨(["za", "zb"] : List String).map (compareRecommendation "r1" "n2-standard-4" 3)⟩
    rfl rfl

set_option maxRecDepth 16000 in
/-- Counterexample to C5 as stated: with the spec-recommended count-weighted
aggregation, a one-instance request over two zones of unequal pool depth
places the whole unit in the first zone, while the best single-zone option
uses the deeper second zone, so the balanced obtainability is strictly below
the maximum compare-mode obtainability. -/
theorem balanced_ge_singleZone_cex :
    okObtMax (assemble "us-central1" "e2-medium" 1 TargetShape.balanced
        ["us-central1-a", "us-central1-b"]) <
      okObtMax (assemble "us-central1" "e2-medium" 1 TargetShape.any
        ["us-central1-a", "us-central1-b"]) := by
  have hsm : scarcityMultiplier ResourceFamily.generalPurpose Generation.legacy = 1 := by
    simp [scarcityMultiplier]
  have hd1 : poolDepth "us-central1" "us-central1-a"
      ResourceFamily.generalPurpose "e2-medium" = 201 := by decide
  have hd2 : poolDepth "us-central1" "us-central1-b"
      ResourceFamily.generalPurpose "e2-medium" = 322 := by decide
  have hfam : familyOfString (getMachineTypeFamily "e2-medium") =
      ResourceFamily.generalPurpose := by decide
  have hgen : getMachineTypeGeneration "e2-medium" = Generation.legacy := by decide
  have hsh : balancedShards "e2-medium" 1 ["us-central1-a", "us-central1-b"] =
      [{ location := "us-central1-a", machineType := "e2-medium", count := 1,
         provisioningModel := "SPOT" },
       { location := "us-central1-b", machineType := "e2-medium", count := 0,
         provisioningModel := "SPOT" }] := by decide
  have hB : assemble "us-central1" "e2-medium" 1 TargetShape.balanced
      ["us-central1-a", "us-central1-b"] =
      Except.ok ⟨[balancedRecommendation "us-central1" "e2-medium" 1
        ["us-central1-a", "us-central1-b"]]⟩ := rfl
  have hA : assemble "us-central1" "e2-medium" 1 TargetShape.any
      ["us-central1-a", "us-central1-b"] =
      Except.ok ⟨(["us-central1-a", "us-central1-b"] : List String).map
        (compareRecommendation "us-central1" "e2-medium" 1)⟩ := rfl
  rw [hB, hA]
  simp only [okObtMax, recsObtMax, List.map_cons, List.map_nil, List.foldr_cons,
    List.foldr_nil, obtScore_balancedRec, obtScore_compareRec, hfam, hgen,
    balancedMetric, hsh, scoreZone, hd1, hd2, hsm, clamp01]
  norm_num [max_def, min_def]
